import Mathlib

/-!
# Verification of the game-seeker-vault update pipeline

A shallow embedding, in Lean 4, of the update pipeline of the
game-seeker-vault repository (Python), faithful to the source files
`updater/game_data_builder.py`, `updater/main.py`, `updater/steam_client.py`,
`updater/rate_controller.py` and `updater/constants.py`.

Modelling conventions:
* Python `int` values are `Nat`/`Int`; Python float arithmetic on prices and
  metrics is modelled exactly with `Rat` (the quantities involved are far
  from the ranges where IEEE-754 rounding could change a truncation result).
* `int(x)` on a non-negative float is floor, modelled by `Nat` floor
  division or `Int.floor`.
* Python dictionaries built from lists are association lists; a dict
  comprehension lets later keys override earlier ones, so lookups search the
  reversed list.
* Fallible code and raised exceptions are modelled with `Except`.
* Network responses (Steam appdetails, ITAD batch deals, ITAD tags) are
  oracle parameters: a run of the pipeline is a pure function of its inputs
  and of those oracles.
-/

namespace GameSeekerVault

/-- A JSON-ish price value as it appears in a deal record:
an integer amount, the `"-"` sentinel string, or Python `None`. -/
inductive MVal where
  | int (n : Int)
  | dash
  | null
deriving DecidableEq, Repr

/-- A deal quote (`DealQuote` of the spec): the dictionaries built at
`game_data_builder.py` lines 582-588/608-614/779-785/805-811/1047-1053 and
the ones stored in the catalog.  `noItadData` models the optional flag
(absent key reads as `False` via `dict.get`). -/
structure Deal where
  price : MVal
  regular : MVal
  cut : Int
  storeLow : MVal
  noItadData : Bool := false
deriving DecidableEq, Repr

/-- One entry of the id-map: `{ id, itadId? }`. -/
structure IdEntry where
  id : String
  itadId : Option String := none
deriving DecidableEq, Repr

/-- Price information extracted from a Steam appdetails payload
(`steam_client.py`, `_extract_price_from_api`): `price` is the regular
price, `salePrice` the current sale price; `none` models Python `None`. -/
structure SteamPrice where
  price : Option Nat := none
  salePrice : Option Nat := none
  discountPercent : Option Nat := none
deriving DecidableEq, Repr

/-- The `price_overview` block of an appdetails payload.  `final` and
`initial` are integer minor units (e.g. cents). -/
structure PriceOverview where
  final : Nat
  initial : Nat
  discount_percent : Nat
deriving DecidableEq, Repr

/-- The slice of an appdetails `data` payload consumed by
`_extract_price_from_api`: the `is_free` flag and the optional
`price_overview` block (`{}` models as `none`). -/
structure AppData where
  is_free : Bool
  price_overview : Option PriceOverview
deriving DecidableEq, Repr

/-- `steam_client.py` `_extract_price_from_api` (lines 307-350).
Python computes `final/100` and `initial/100` as floats and applies `int()`
(truncation); on these non-negative values that is exactly `Nat` floor
division by 100. -/
def extract_price_from_api (app_data : AppData) : SteamPrice :=
  if app_data.is_free then
    { price := some 0 }
  else
    match app_data.price_overview with
    | none => {}
    | some po =>
      -- final_price = final / 100 if final else 0; likewise initial_price
      if po.final = 0 then
        { price := some 0 }
      else
        let price := if po.initial > 0 then po.initial / 100 else po.final / 100
        -- salePrice is set iff initial/100 > final/100 > 0, i.e. initial > final > 0
        if po.initial > po.final ∧ po.final > 0 then
          { price := some price, salePrice := some (po.final / 100),
            discountPercent := some po.discount_percent }
        else
          { price := some price }

/-- The `steam_prices.get('price', 0)` read used by the builder: a missing
region dictionary defaults to `0`, a present key may still hold `None`. -/
def regularOf (sp : Option SteamPrice) : Option Nat :=
  match sp with
  | none => some 0
  | some p => p.price

/-- The `steam_prices.get('salePrice')` read: defaults to `None`. -/
def saleOf (sp : Option SteamPrice) : Option Nat :=
  sp.bind (fun p => p.salePrice)

/-- Coerce an optional integer price to the value stored in a deal record:
Python stores the integer itself, or `None`. -/
def mvalOfOptNat : Option Nat → MVal
  | some n => .int n
  | none => .null

/-- The deal synthesized from Steam data when no ITAD deal is available
(`game_data_builder.py` lines 571-588, repeated at 596-614, 767-785,
793-811 and 1035-1053).  Python computes
`int(((regular - sale) / regular) * 100)`, a float truncation; on these
non-negative operands that is `(regular - sale) * 100 / regular` in `Nat`
floor division. -/
def build_steam_deal (regular_price sale_price : Option Nat) : Deal :=
  match sale_price with
  | some s =>
    match regular_price with
    | some r =>
      if s < r then
        { price := .int s, regular := .int r,
          cut := if r > 0 then ((r - s) * 100 / r : Nat) else 0,
          storeLow := .dash, noItadData := true }
      else
        { price := .int r, regular := .int r, cut := 0,
          storeLow := .dash, noItadData := true }
    | none =>
      -- `sale_price < regular_price` would compare int with None; this case
      -- is unreachable because `_extract_price_from_api` sets `salePrice`
      -- only together with `price`.
      { price := .null, regular := .null, cut := 0,
        storeLow := .dash, noItadData := true }
  | none =>
    -- the condition is False: price = regular_price, cut = 0
    { price := mvalOfOptNat regular_price, regular := mvalOfOptNat regular_price,
      cut := 0, storeLow := .dash, noItadData := true }

/-! ## Catalog records, dictionaries, response payloads -/

/-- The slice of the appdetails-derived dictionary returned by
`SteamClient.get_game_info_from_api` that the builder consumes:
the title and the per-region price blocks (`prices.get('JP')` /
`prices.get('US')`).  The remaining metadata fields (image URL, review
score, genres, release date, developers, publishers, platforms,
supported languages) are copied verbatim into the record and play no role
in any claim, so they are not carried in the model. -/
structure SteamData where
  title : String := ""
  pricesJP : Option SteamPrice := none
  pricesUS : Option SteamPrice := none
deriving DecidableEq, Repr

/-- A catalog record (`GameRecord`), restricted to the fields the claims
touch.  `deal` is the currency-keyed dictionary holding a `JPY` and
possibly a `USD` quote. -/
structure Game where
  id : String
  itadId : Option String := none
  title : String := ""
  dealJPY : Option Deal := none
  dealUSD : Option Deal := none
  tags : List String := []
deriving DecidableEq, Repr

/-- Lookup in a Python dict built by a comprehension over a list:
later occurrences of a key override earlier ones. -/
def dictLookup (m : List (String × Deal)) (k : String) : Option Deal :=
  (m.reverse.find? (fun p => p.1 = k)).map (fun p => p.2)

/-- `id_map_dict.get(app_id)`: the dict `{item['id']: item.get('itadId')}`
flattens a missing key and a stored `None` to the same `None`. -/
def idMapLookup (id_map : List IdEntry) (app_id : String) : Option String :=
  match id_map.reverse.find? (fun e => e.id = app_id) with
  | none => none
  | some e => e.itadId

/-- `existing_games_dict.get(app_id)` for the dict
`{game['id']: game for game in existing_games}`. -/
def gameLookup (games : List Game) (app_id : String) : Option Game :=
  games.reverse.find? (fun g => g.id = app_id)

/-- `game.get('deal', {}).get('JPY', {}).get('noItadData', False)`. -/
def noItadFlag (g : Game) : Bool :=
  match g.dealJPY with
  | some d => d.noItadData
  | none => false

/-- The `price` read from a stored deal: a missing `JPY` block makes
`kv_deal.get('price')` return `None`. -/
def kvPrice (d : Option Deal) : MVal :=
  match d with
  | some d => d.price
  | none => .null

/-- The `cut` read from a stored deal: `kv_deal.get('cut', 0)`. -/
def kvCut (d : Option Deal) : Int :=
  match d with
  | some d => d.cut
  | none => 0

/-! ## A stable insertion sort (Python `list.sort` is stable) -/

/-- Insert `x` after every element `y` with `le y x`; with a `le` that is
true on ties this keeps insertion order among equal keys, matching the
stability of Python sorts. -/
def sortedInsert (le : α → α → Bool) : List α → α → List α
  | [], x => [x]
  | y :: ys, x => if le y x then y :: sortedInsert le ys x else x :: y :: ys

/-- Stable sort with respect to the boolean relation `le`. -/
def sortStable (le : α → α → Bool) (l : List α) : List α :=
  l.foldl (sortedInsert le) []

theorem mem_sortedInsert (le : α → α → Bool) (l : List α) (x a : α) :
    a ∈ sortedInsert le l x ↔ a ∈ l ∨ a = x := by
  induction l with
  | nil => simp [sortedInsert]
  | cons y ys ih =>
    simp only [sortedInsert]
    split
    · simp [ih]; tauto
    · simp; tauto

theorem mem_sortStable (le : α → α → Bool) (l : List α) (a : α) :
    a ∈ sortStable le l ↔ a ∈ l := by
  suffices h : ∀ init : List α, a ∈ l.foldl (sortedInsert le) init ↔ a ∈ l ∨ a ∈ init by
    simpa using h []
  induction l with
  | nil => intro init; simp
  | cons x xs ih =>
    intro init
    simp only [List.foldl_cons, ih, mem_sortedInsert, List.mem_cons]
    tauto

theorem sortStable_eq_nil (le : α → α → Bool) (l : List α) :
    sortStable le l = [] ↔ l = [] := by
  constructor
  · intro h
    cases l with
    | nil => rfl
    | cons x xs =>
      exfalso
      have hx : x ∈ sortStable le (x :: xs) := by
        rw [mem_sortStable]; exact List.mem_cons_self x xs
      rw [h] at hx
      exact List.not_mem_nil x hx
  · intro h; subst h; rfl

/-! ## Title resolver (`find_best_match`, `calculate_score`,
`should_exclude`)

Python strings are modelled as their character sequences (`List Char`);
`lower`, `upper`, `strip`, `len` and substring containment are the
corresponding character-wise operations. -/

/-- A Python string as its character sequence. -/
def pyChars (s : String) : List Char := s.data

/-- `str.lower()`. -/
def pyLower (s : List Char) : List Char := s.map Char.toLower

/-- `str.upper()`. -/
def pyUpper (s : List Char) : List Char := s.map Char.toUpper

/-- `str.strip()`: drop whitespace from both ends. -/
def pyStrip (s : List Char) : List Char :=
  ((s.dropWhile Char.isWhitespace).reverse.dropWhile Char.isWhitespace).reverse

/-- `leadsWith needle hay`: `hay` starts with `needle`. -/
def leadsWith : List Char → List Char → Bool
  | [], _ => true
  | _ :: _, [] => false
  | a :: as, b :: bs => a = b && leadsWith as bs

/-- Python substring containment `needle in hay`. -/
def containsSub (hay needle : List Char) : Bool :=
  match hay with
  | [] => needle.isEmpty
  | _ :: rest => leadsWith needle hay || containsSub rest needle

/-- `EXCLUDE_KEYWORDS` from `constants.py`. -/
def EXCLUDE_KEYWORDS : List String :=
  ["Soundtrack", "OST", "Original Soundtrack", "Music",
   "Demo", "Playtest", "Beta", "Test",
   "DLC", "Expansion", "Season Pass", "Content Pack",
   "Artbook", "Digital Art", "Art Book",
   "Soundtrack Edition", "Deluxe Edition", "Ultimate Edition",
   "Prologue", "Epilogue", "Prequel"]

/-- `KEEP_EDITIONS` from `constants.py`. -/
def KEEP_EDITIONS : List String :=
  ["Complete Edition", "Definitive Edition", "GOTY",
   "Game of the Year", "Remastered", "Enhanced Edition",
   "Director\x27s Cut", "Special Edition"]

def SCORE_EXACT_MATCH : Nat := 100
def SCORE_PARTIAL_MATCH_BASE : Nat := 90
def SCORE_SIMILARITY_MULTIPLIER : Nat := 80
def SCORE_AUTO_ACCEPT_THRESHOLD : Nat := 80
def SCORE_CANDIDATE_THRESHOLD : Nat := 60

/-- `GameDataBuilder.should_exclude` (`game_data_builder.py` lines 42-56). -/
def should_exclude (title : String) : Bool :=
  let tu := pyUpper (pyChars title)
  if KEEP_EDITIONS.any (fun keep => containsSub tu (pyUpper (pyChars keep))) then
    false
  else
    EXCLUDE_KEYWORDS.any (fun ex => containsSub tu (pyUpper (pyChars ex)))

/-- `GameDataBuilder.calculate_score` (lines 58-74).  `simFn` stands for
`difflib.SequenceMatcher(None, a, b).ratio()`, a Python standard-library
function returning a value in `[0,1]`; `int(similarity * 80)` truncates,
which on a non-negative value is the floor. -/
def calculate_score (simFn : List Char → List Char → ℚ)
    (search cand : String) : Nat :=
  let s := pyStrip (pyLower (pyChars search))
  let c := pyStrip (pyLower (pyChars cand))
  if s = c then SCORE_EXACT_MATCH
  else if containsSub c s then
    SCORE_PARTIAL_MATCH_BASE - (max c.length s.length - min c.length s.length)
  else
    (simFn s c * SCORE_SIMILARITY_MULTIPLIER).floor.toNat

/-- One entry of the Steam full app list (`{'appid': ..., 'name': ...}`);
`appid := none` models a missing key. -/
structure AppEntry where
  appid : Option Nat := none
  name : String := ""
deriving DecidableEq, Repr

/-- A retained candidate. -/
structure Candidate where
  appid : Nat
  name : String
  score : Nat
deriving DecidableEq, Repr

/-- Result of `find_best_match`: Python returns `None`, a
`.. 'multiple': .. ` dict, or a `.. 'match': .. ` dict. -/
inductive MatchResult where
  | noMatch
  | multiple (ms : List Candidate)
  | found (c : Candidate)
deriving DecidableEq, Repr

/-- The candidate-collection loop of `find_best_match` (lines 85-105):
skip entries with a falsy name or appid, skip excluded names, retain the
rest when the score reaches `SCORE_CANDIDATE_THRESHOLD`. -/
def resolver_candidates (simFn : List Char → List Char → ℚ) (title : String)
    (game_id_list : List AppEntry) : List Candidate :=
  game_id_list.filterMap (fun app =>
    match app.appid with
    | none => none
    | some aid =>
      if app.name = "" ∨ aid = 0 then none
      else if should_exclude app.name then none
      else
        let score := calculate_score simFn title app.name
        if score ≥ SCORE_CANDIDATE_THRESHOLD then
          some { appid := aid, name := app.name, score := score }
        else none)

/-- `GameDataBuilder.find_best_match` (lines 76-126).  The final two
returns of the source (score at or above `SCORE_AUTO_ACCEPT_THRESHOLD`,
and the fall-through for scores between the candidate and auto-accept
thresholds) both return the top candidate; the conditional is kept to
mirror the source. -/
def find_best_match (simFn : List Char → List Char → ℚ) (title : String)
    (game_id_list : List AppEntry) : MatchResult :=
  let candidates := resolver_candidates simFn title game_id_list
  if candidates.isEmpty then .noMatch
  else
    -- candidates.sort(key=lambda x: x['score'], reverse=True), a stable
    -- descending sort
    let sorted := sortStable (fun a b => b.score ≤ a.score) candidates
    let exact_matches := sorted.filter (fun c => c.score = SCORE_EXACT_MATCH)
    if exact_matches.length > 1 then .multiple exact_matches
    else
      match sorted with
      | c :: _ =>
        if c.score ≥ SCORE_AUTO_ACCEPT_THRESHOLD then .found c else .found c
      | [] => .noMatch

/-! ## Record construction (`_build_game_data_from_steam`) -/

/-- The `itad_deal` argument of `_build_game_data_from_steam`: the
currency-keyed dict (`JPY` always present at the call sites, `USD` only in
the two-region modes), or Python `None`. -/
structure DealDict where
  jpy : Option Deal := none
  usd : Option Deal := none
deriving DecidableEq, Repr

/-- `GameDataBuilder._build_game_data_from_steam` (lines 335-378): builds a
record from Steam data, attaching the deal dict (or the all-dash default
when `None`) and the first three tags. -/
def build_game_data_from_steam (app_id : String) (steam_data : SteamData)
    (itad_id : Option String) (itad_deal : Option DealDict)
    (tags : List String) : Game :=
  let top_tags := tags.take 3
  let deal : DealDict :=
    match itad_deal with
    | some d => d
    | none =>
      { jpy := some { price := .dash, regular := .dash, cut := 0, storeLow := .dash },
        usd := some { price := .dash, regular := .dash, cut := 0, storeLow := .dash } }
  { id := app_id, itadId := itad_id, title := steam_data.title,
    dealJPY := deal.jpy, dealUSD := deal.usd, tags := top_tags }

/-! ## Differential update (`_rebuild_differential_update`) -/

/-- Abort signals raised by the builder. -/
inductive UpdErr where
  | batchEmpty
  | nameErrorItadDeal
deriving DecidableEq, Repr

/-- Inputs of a diff-refresh run.  `jpyDeals`/`usdDeals` are the dicts
returned by `itad_client.get_batch_deals` for the two regions; `steamFetch`
is the `get_game_info_from_api` oracle; `tagsOf` is the
`itad_client.get_game_tags` oracle. -/
structure DiffInputs where
  id_map : List IdEntry
  existing_games : List Game
  hasItadClient : Bool
  jpyDeals : List (String × Deal)
  usdDeals : List (String × Deal)
  steamFetch : String → Option SteamData
  tagsOf : String → List String

/-- The set `games_with_no_itad_flag` (lines 407-410). -/
def flaggedIds (existing_games : List Game) : List String :=
  (existing_games.filter (fun g => noItadFlag g)).map (fun g => g.id)

/-- `itad_enabled_ids` (line 413): itadIds of id-map entries that carry one
and whose id is not flagged `noItadData`. -/
def itadEnabledIds (inp : DiffInputs) : List String :=
  inp.id_map.filterMap (fun item =>
    match item.itadId with
    | some t => if item.id ∈ flaggedIds inp.existing_games then none else some t
    | none => none)

/-- Phase 1 classification of one id (diff-refresh loop, lines 434-484),
returning the lists it contributes to, in order:
`(games_to_update, games_no_change, games_without_itad,
games_needing_steam_comparison)`. -/
def phase1Classify (inp : DiffInputs) (dealMapJ : List (String × Deal)) :
    List String →
      List (String × Option String) × List String × List String × List String
  | [] => ([], [], [], [])
  | app_id :: rest =>
    let p := phase1Classify inp dealMapJ rest
    match gameLookup inp.existing_games app_id with
    | none => p  -- in id-map but not in games-data: skip
    | some existing_game =>
      let kv_deal := existing_game.dealJPY
      if noItadFlag existing_game then
        -- deferred to Phase 1.5
        (p.1, p.2.1, app_id :: p.2.2.1, app_id :: p.2.2.2)
      else
        match idMapLookup inp.id_map app_id with
        | none => ((app_id, none) :: p.1, p.2.1, app_id :: p.2.2.1, p.2.2.2)
        | some itad_id =>
          match dictLookup dealMapJ itad_id with
          | none =>
            ((app_id, some itad_id) :: p.1, p.2.1, app_id :: p.2.2.1, p.2.2.2)
          | some itad_deal_jpy =>
            if itad_deal_jpy.price = .dash ∧ itad_deal_jpy.regular = .dash then
              ((app_id, some itad_id) :: p.1, p.2.1, app_id :: p.2.2.1, p.2.2.2)
            else
              if itad_deal_jpy.price ≠ kvPrice kv_deal ∨
                 itad_deal_jpy.cut ≠ kvCut kv_deal then
                ((app_id, some itad_id) :: p.1, p.2.1, p.2.2.1, p.2.2.2)
              else
                (p.1, app_id :: p.2.1, p.2.2.1, p.2.2.2)

/-- Phase 1.5 (lines 489-518): Steam-price comparison for `noItadData`
records, returning `(games_to_update, games_no_change)` contributions. -/
def phase15Classify (inp : DiffInputs) :
    List String → List (String × Option String) × List String
  | [] => ([], [])
  | app_id :: rest =>
    let p := phase15Classify inp rest
    match inp.steamFetch app_id with
    | none => (p.1, app_id :: p.2)  -- fetch failed: keep existing data
    | some basic_data =>
      let steam_regular := regularOf basic_data.pricesJP
      let steam_sale := saleOf basic_data.pricesJP
      let steam_current : Option Nat :=
        match steam_sale with
        | some s => some s
        | none => steam_regular
      let kv_price := kvPrice ((gameLookup inp.existing_games app_id).bind
        (fun g => g.dealJPY))
      if mvalOfOptNat steam_current ≠ kv_price then
        ((app_id, idMapLookup inp.id_map app_id) :: p.1, p.2)
      else
        (p.1, app_id :: p.2)

/-- The per-id Phase 2 rebuild (lines 541-633), also used by
`_process_normal_mode`: nullify all-dash ITAD deals, fall back to the
Steam-synthesized quote per currency, fetch tags, build the record.
Returns the new record together with the `games_without_itad`
contribution, or `none` when the Steam fetch failed. -/
def phase2Rebuild (hasItadClient : Bool)
    (dealMapJ dealMapU : List (String × Deal))
    (steamFetch : String → Option SteamData) (tagsOf : String → List String)
    (app_id : String) (itad_id : Option String) :
    Option (Game × List String) :=
  match steamFetch app_id with
  | none => none
  | some basic_data =>
    let itad_deal_jpy0 := itad_id.bind (dictLookup dealMapJ)
    let itad_deal_usd0 := itad_id.bind (dictLookup dealMapU)
    let itad_deal_jpy :=
      match itad_deal_jpy0 with
      | some d => if d.price = .dash ∧ d.regular = .dash then none else some d
      | none => none
    let itad_deal_usd :=
      match itad_deal_usd0 with
      | some d => if d.price = .dash ∧ d.regular = .dash then none else some d
      | none => none
    let (dealJ, without) :=
      match itad_deal_jpy with
      | some d => (d, ([] : List String))
      | none =>
        (build_steam_deal (regularOf basic_data.pricesJP)
          (saleOf basic_data.pricesJP), [app_id])
    let dealU :=
      match itad_deal_usd with
      | some d => d
      | none =>
        build_steam_deal (regularOf basic_data.pricesUS)
          (saleOf basic_data.pricesUS)
    let tags :=
      match itad_id with
      | some t => if hasItadClient then tagsOf t else []
      | none => []
    some (build_game_data_from_steam app_id basic_data itad_id
      (some { jpy := some dealJ, usd := some dealU }) tags, without)

/-- The Phase 2 loop over `games_to_update` (lines 541-633), returning
`(rebuilt updated records, failed_games, games_without_itad)` in loop
order. -/
def phase2Loop (inp : DiffInputs) (dealMapJ dealMapU : List (String × Deal)) :
    List (String × Option String) → List Game × List String × List String
  | [] => ([], [], [])
  | (app_id, itad_id) :: rest =>
    let p := phase2Loop inp dealMapJ dealMapU rest
    match phase2Rebuild inp.hasItadClient dealMapJ dealMapU inp.steamFetch
        inp.tagsOf app_id itad_id with
    | none => (p.1, app_id :: p.2.1, p.2.2)
    | some gw => (gw.1 :: p.1, p.2.1, gw.2 ++ p.2.2)

/-- Result of a builder run (the dict returned at lines 641-650 /
880-889). -/
structure BuildResult where
  rebuilt_games : List Game
  failed_games : List String
  games_no_change : List String
  games_to_update : List (String × Option String)
  games_without_itad : List String
  id_map : List IdEntry
  newly_added_games : List String
deriving DecidableEq, Repr

/-- `GameDataBuilder._rebuild_differential_update` (lines 380-650).
The ITAD batch maps are fetched only when there are enabled ids and a
client; the run aborts when the first (JPY) batch comes back empty while
ids were submitted (lines 424-426). -/
def rebuild_differential_update (inp : DiffInputs) :
    Except UpdErr BuildResult :=
  let all_app_ids := inp.id_map.map (fun item => item.id)
  let fetchEnabled := inp.hasItadClient ∧ itadEnabledIds inp ≠ []
  let dealMapJ := if fetchEnabled then inp.jpyDeals else []
  let dealMapU := if fetchEnabled then inp.usdDeals else []
  if fetchEnabled ∧ dealMapJ = [] then
    .error .batchEmpty
  else
    let p1 := phase1Classify inp dealMapJ all_app_ids
    let p15 := phase15Classify inp p1.2.2.2
    let games_to_update := p1.1 ++ p15.1
    let games_no_change := p1.2.1 ++ p15.2
    -- Phase 2: unchanged records are copied first, then the update loop
    -- appends the rebuilt records (lines 533-633)
    let unchanged := games_no_change.filterMap (gameLookup inp.existing_games)
    let p2 := phase2Loop inp dealMapJ dealMapU games_to_update
    .ok { rebuilt_games := unchanged ++ p2.1,
          failed_games := p2.2.1,
          games_no_change := games_no_change,
          games_to_update := games_to_update,
          games_without_itad := p1.2.2.1 ++ p2.2.2,
          id_map := inp.id_map,
          newly_added_games := [] }

/-! ## Append mode, normal sub-mode (`_process_normal_mode`) -/

/-- Inputs of an append-mode run.  `new_ids` are the ids newly accepted by
the resolver (the `target_ids` of the source). -/
structure NormalInputs where
  new_ids : List String
  id_map : List IdEntry
  existing_games : List Game
  hasItadClient : Bool
  jpyDeals : List (String × Deal)
  usdDeals : List (String × Deal)
  steamFetch : String → Option SteamData
  tagsOf : String → List String

/-- `new_itad_ids` (line 720). -/
def newItadIds (id_map : List IdEntry) (target_ids : List String) :
    List String :=
  target_ids.filterMap (idMapLookup id_map)

/-- The per-id loop of `_process_normal_mode` (lines 736-850), returning
`(rebuilt_games, failed_games, games_without_itad)`.  For an id that has
an itadId and whose Steam fetch succeeded, the bookkeeping at line 845
evaluates `itad_deal`, a name never bound in `_process_normal_mode`
(the deal variables there are `itad_deal_jpy`/`itad_deal_usd`), so Python
raises `NameError` before the record is appended; the quote built just
before (lines 747-821, identical to the Phase 2 logic) is discarded with
the stack frame. -/
def normalLoop (inp : NormalInputs) (dealMapJ dealMapU : List (String × Deal)) :
    List String → Except UpdErr (List Game × List String × List String)
  | [] => .ok ([], [], [])
  | app_id :: rest =>
    match inp.steamFetch app_id with
    | none => do
      let (gs, fs, ws) ← normalLoop inp dealMapJ dealMapU rest
      .ok (gs, app_id :: fs, ws)
    | some _ =>
      match idMapLookup inp.id_map app_id with
      | some _ => .error .nameErrorItadDeal
      | none =>
        match phase2Rebuild inp.hasItadClient dealMapJ dealMapU inp.steamFetch
            inp.tagsOf app_id none with
        | none => do  -- unreachable: the Steam fetch succeeded above
          let (gs, fs, ws) ← normalLoop inp dealMapJ dealMapU rest
          .ok (gs, app_id :: fs, ws)
        | some (g, w) => do
          let (gs, fs, ws) ← normalLoop inp dealMapJ dealMapU rest
          .ok (g :: gs, fs, w ++ ws)

/-- The append-mode merge (lines 852-873): existing records first, then the
new records whose id is not already present.  `existing_ids` is computed
once and not extended during the loop. -/
def appendMerge (existing_games rebuilt : List Game) :
    List Game × List String :=
  let existing_ids := existing_games.map (fun g => g.id)
  let freshlyAdded := rebuilt.filter (fun g => ¬ g.id ∈ existing_ids)
  (existing_games ++ freshlyAdded, freshlyAdded.map (fun g => g.id))

/-- `GameDataBuilder._process_normal_mode` (lines 701-889). -/
def process_normal_mode (inp : NormalInputs) : Except UpdErr BuildResult :=
  let target_ids := inp.new_ids
  let fetchEnabled := inp.hasItadClient ∧ newItadIds inp.id_map target_ids ≠ []
  let dealMapJ := if fetchEnabled then inp.jpyDeals else []
  let dealMapU := if fetchEnabled then inp.usdDeals else []
  if fetchEnabled ∧ dealMapJ = [] then
    .error .batchEmpty  -- lines 731-733
  else do
    let (rebuilt, failed, without) ← normalLoop inp dealMapJ dealMapU target_ids
    let (final_games, newly_added) := appendMerge inp.existing_games rebuilt
    .ok { rebuilt_games := final_games,
          failed_games := failed,
          games_no_change := [],
          games_to_update := [],
          games_without_itad := without,
          id_map := inp.id_map,
          newly_added_games := newly_added }

/-! ## Append mode, batch sub-mode (`_process_batch_mode`) -/

/-- A write to the persistence layer or to the checkpoint directory. -/
inductive WriteKey where
  | tmpGames
  | idMap
  | gamesData
  | checkpoint (n : Nat)
deriving DecidableEq, Repr

/-- `CHECKPOINT_INTERVAL` from `constants.py`. -/
def CHECKPOINT_INTERVAL : Nat := 1000

/-- Inputs of a batch sub-mode run.  `target_ids` are the ids left after
skipping the checkpointed prefix; `start_index` is the latest checkpoint
count (0 when starting fresh); `checkpointGames` are the records read back
from shards written by earlier aborted runs. -/
structure BatchInputs where
  target_ids : List String
  start_index : Nat
  id_map : List IdEntry
  existing_games : List Game
  checkpointGames : List Game
  hasItadClient : Bool
  jpyDeals : List (String × Deal)
  steamFetch : String → Option SteamData
  tagsOf : String → List String

/-- The per-id loop of `_process_batch_mode` (lines 1012-1103): single
region (`JP`), checkpoint shard plus id-map write every
`CHECKPOINT_INTERVAL` completed positions, in-memory accumulator cleared
after each flush.  Returns `(in-memory remainder, flushed shard records,
failed_games, games_without_itad, writes)`. -/
def batchLoop (inp : BatchInputs) (dealMapJ : List (String × Deal)) :
    List String → Nat → List Game →
      List Game × List Game × List String × List String × List WriteKey
  | [], _, acc => (acc, [], [], [], [])
  | app_id :: rest, i, acc =>
    match inp.steamFetch app_id with
    | none =>
      let (mem, cps, fs, ws, wr) := batchLoop inp dealMapJ rest (i + 1) acc
      (mem, cps, app_id :: fs, ws, wr)
    | some steam_data =>
      let itad_id := idMapLookup inp.id_map app_id
      let itad_deal0 := itad_id.bind (dictLookup dealMapJ)
      let itad_deal :=
        match itad_deal0 with
        | some d => if d.price = .dash ∧ d.regular = .dash then none else some d
        | none => none
      let (dealJ, without) :=
        match itad_deal with
        | some d => (d, ([] : List String))
        | none =>
          (build_steam_deal (regularOf steam_data.pricesJP)
            (saleOf steam_data.pricesJP), [app_id])
      let tags :=
        match itad_id with
        | some t => if inp.hasItadClient then inp.tagsOf t else []
        | none => []
      let new_game := build_game_data_from_steam app_id steam_data itad_id
        (some { jpy := some dealJ, usd := none }) tags
      let acc' := acc ++ [new_game]
      let checkpoint_number := inp.start_index + i
      if checkpoint_number % CHECKPOINT_INTERVAL = 0 then
        let (mem, cps, fs, ws, wr) := batchLoop inp dealMapJ rest (i + 1) []
        (mem, acc' ++ cps, fs, without ++ ws,
          .checkpoint checkpoint_number :: .idMap :: wr)
      else
        let (mem, cps, fs, ws, wr) := batchLoop inp dealMapJ rest (i + 1) acc'
        (mem, cps, fs, without ++ ws, wr)

/-- `GameDataBuilder._process_batch_mode` (lines 891-1192), with the lock
file and log renaming elided (they touch neither logical key).  Returns
the build result together with the writes issued during the run. -/
def process_batch_mode (inp : BatchInputs) :
    Except UpdErr (BuildResult × List WriteKey) :=
  if inp.target_ids.length = 0 then
    .ok ({ rebuilt_games := inp.existing_games, failed_games := [],
           games_no_change := [], games_to_update := [],
           games_without_itad := [], id_map := inp.id_map,
           newly_added_games := [] }, [])
  else
    let fetchEnabled := inp.hasItadClient ∧ newItadIds inp.id_map inp.target_ids ≠ []
    let dealMapJ := if fetchEnabled then inp.jpyDeals else []
    if fetchEnabled ∧ dealMapJ = [] then
      .error .batchEmpty  -- lines 995-997
    else
      let (mem, cps, failed, without, writes) :=
        batchLoop inp dealMapJ inp.target_ids 1 []
      -- merge: shards on disk (earlier runs first), then this run's shards,
      -- then the in-memory remainder (lines 1105-1146)
      let all_new_games := inp.checkpointGames ++ cps ++ mem
      let (final_games, newly_added) := appendMerge inp.existing_games all_new_games
      .ok ({ rebuilt_games := final_games, failed_games := failed,
             games_no_change := [], games_to_update := [],
             games_without_itad := without, id_map := inp.id_map,
             newly_added_games := newly_added }, writes)

/-! ## Persistence (`main.py`) -/

/-- The writes issued by `save_and_backup` (`main.py` lines 173-252): the
temp file is always written; id-map and games-data are written, in that
order, exactly when there are records and no per-id fetch failures
(line 187). -/
def save_and_backup_writes (rebuilt_games : List Game)
    (failed_games : List String) : List WriteKey :=
  WriteKey.tmpGames ::
    (if rebuilt_games.length > 0 ∧ failed_games.length = 0 then
      [WriteKey.idMap, WriteKey.gamesData]
    else [])

/-- A complete diff-refresh run: `rebuild_games_data` followed by
`save_and_backup`.  A raised abort propagates out of `main` before
`save_and_backup` is reached, so nothing is written. -/
def run_differential (inp : DiffInputs) :
    Option BuildResult × List WriteKey :=
  match rebuild_differential_update inp with
  | .error _ => (none, [])
  | .ok r => (some r, save_and_backup_writes r.rebuilt_games r.failed_games)

/-- A complete append-mode run in the normal sub-mode. -/
def run_normal (inp : NormalInputs) : Option BuildResult × List WriteKey :=
  match process_normal_mode inp with
  | .error _ => (none, [])
  | .ok r => (some r, save_and_backup_writes r.rebuilt_games r.failed_games)

/-- A complete append-mode run in the batch sub-mode: checkpoint-time
writes happen during the loop, the persistence gate afterwards. -/
def run_batch (inp : BatchInputs) : Option BuildResult × List WriteKey :=
  match process_batch_mode inp with
  | .error _ => (none, [])
  | .ok (r, writes) =>
    (some r, writes ++ save_and_backup_writes r.rebuilt_games r.failed_games)

/-- Result of `delete_games_command` (`main.py` lines 255-316). -/
structure DeleteResult where
  games : List Game
  idMapData : List IdEntry
  writes : List WriteKey
deriving Repr

/-- `delete_games_command`: filter both stores, then write games-data
first and id-map second (lines 303-305).  An empty delete list returns
early without writing (lines 274-281). -/
def delete_games_command (delete_appids : List String)
    (games_data : List Game) (id_map_data : List IdEntry) : DeleteResult :=
  if delete_appids.isEmpty then
    { games := games_data, idMapData := id_map_data, writes := [] }
  else
    let games' := games_data.filter (fun g => ¬ g.id ∈ delete_appids)
    let id_map' := id_map_data.filter (fun e => ¬ e.id ∈ delete_appids)
    { games := games', idMapData := id_map',
      writes := [WriteKey.gamesData, WriteKey.idMap] }

/-! ## Rate controller (`rate_controller.py`)

The controller's metric updates all run under one mutex, so the state
evolution of a run is a sequence of atomic transformations of
`HostMetrics`; time is an explicit rational parameter.  `acquire` (token
bucket and sliding window) only evicts and appends `sent_times` and never
touches `current_concurrency`, so it is not needed by the claims treated
here.  Float arithmetic on metrics is modelled exactly over `Rat`. -/

/-- Constructor arguments of `RateController`. -/
structure RCConfig where
  target_rps : ℚ
  window_seconds : ℚ
  window_limit : Nat
  warmup_requests : Nat := 20
  ewma_alpha : ℚ := 1/5

/-- The `HostMetrics` dataclass (lines 24-50), with deques as lists. -/
structure HostMetrics where
  sent_times : List ℚ := []
  success_times : List ℚ := []
  error_times : List ℚ := []
  rtt_samples : List ℚ := []
  ewma_rtt : ℚ := 3/2
  base_rtt : Option ℚ := none
  total_requests : Nat := 0
  http_429_count : Nat := 0
  http_403_count : Nat := 0
  network_error_count : Nat := 0
  backoff_multiplier : ℚ := 1
  last_backoff_time : ℚ := 0
  current_concurrency : Nat := 5
  last_concurrency_increase : ℚ := 0
  warmup_completed : Bool := false
deriving DecidableEq, Repr

/-- The locked section of `report_http_error` (lines 231-253): a 429
halves `current_concurrency` with floor 1, stamps the backoff time and
sets the backoff multiplier; a 403 only counts.  The sleeps happen outside
the lock and change no state. -/
def report_http_error_state (m : HostMetrics) (status_code : Nat)
    (now : ℚ) : HostMetrics :=
  if status_code = 429 then
    { m with http_429_count := m.http_429_count + 1,
             current_concurrency := max 1 (m.current_concurrency / 2),
             last_backoff_time := now,
             backoff_multiplier := 2 }
  else if status_code = 403 then
    { m with http_403_count := m.http_403_count + 1 }
  else m

/-- `while deque and deque[0] < cutoff: deque.popleft()` on a timestamp
deque. -/
def evictOld (cutoff : ℚ) : List ℚ → List ℚ
  | [] => []
  | t :: ts => if t < cutoff then evictOld cutoff ts else t :: ts

/-- `_record_success` up to but excluding the call to
`_evaluate_concurrency_adjustment` (lines 187-211): append the sample,
update the EWMA, complete warmup once enough samples exist (baseline =
median clamped to [0.5 s, 3 s]), trim the sample window to 100. -/
def record_success_body (cfg : RCConfig) (m : HostMetrics)
    (rtt now : ℚ) : HostMetrics :=
  let m1 : HostMetrics := { m with
    success_times := m.success_times ++ [now],
    rtt_samples := m.rtt_samples ++ [rtt],
    ewma_rtt := cfg.ewma_alpha * rtt + (1 - cfg.ewma_alpha) * m.ewma_rtt }
  let m2 : HostMetrics :=
    if ¬ m1.warmup_completed ∧ m1.rtt_samples.length ≥ cfg.warmup_requests then
      let sorted := sortStable (fun a b => decide (a ≤ b)) m1.rtt_samples
      let median := sorted.getD (sorted.length / 2) 0
      { m1 with base_rtt := some (max (1/2) (min 3 median)),
                warmup_completed := true }
    else m1
  if m2.rtt_samples.length > 100 then
    { m2 with rtt_samples := m2.rtt_samples.drop 1 }
  else m2

/-- The part of `_evaluate_concurrency_adjustment` from the inner
`async with self.lock` (line 285) to the end of the function (line 378):
window eviction and usage inside the inner lock, then p95, the safety
margin, the Little's-Law recommendation, the increase/decrease conditions
and the possible resize.  `HostMetrics` has no `http_429_times` attribute
anywhere in the source, so the `hasattr` fallback at line 329 is always
taken.  `int(len(sorted)*0.95)` and the `int()` around the Little's-Law
value are float truncations of non-negative values, modelled as floors.
In the program this code never runs: its only caller already holds the
non-reentrant lock being re-acquired at line 285 (the C10 analysis
below), so the acquisition never succeeds; the translation is kept so
that the unreachability is proved rather than assumed. -/
def evaluateAdjustLocked (cfg : RCConfig) (m : HostMetrics) (now : ℚ) :
    HostMetrics :=
    let base := m.base_rtt.getD 1
    let m' := { m with sent_times := evictOld (now - cfg.window_seconds) m.sent_times }
    let usage : ℚ := (m'.sent_times.length : ℚ) / (cfg.window_limit : ℚ)
    let p95 :=
      if m.rtt_samples.length ≥ 20 then
        let sorted := sortStable (fun a b => decide (a ≤ b)) m.rtt_samples
        sorted.getD (sorted.length * 95 / 100) 0
      else m.ewma_rtt
    let margin : ℚ :=
      if usage ≤ 7/10 ∧ p95 ≤ base * (12/10) then 0
      else if usage > 9/10 ∨ p95 > base * (15/10) then 1
      else 1/2
    let recommended : ℤ :=
      max 1 (min 10 (Int.floor ((Int.ceil (cfg.target_rps * m.ewma_rtt) : ℚ) + margin)))
    let s2 := (m.success_times.filter (fun t => decide (t ≥ now - 120))).length
    let e2 := (m.error_times.filter (fun t => decide (t ≥ now - 120))).length
    let s5 := (m.success_times.filter (fun t => decide (t ≥ now - 300))).length
    let e5 := (m.error_times.filter (fun t => decide (t ≥ now - 300))).length
    let can_increase := decide (now - m.last_concurrency_increase ≥ 30)
    let recent_2min_429 :=
      if now - m.last_backoff_time < 120 then m.http_429_count else 0
    let errRate5 : ℚ := (e5 : ℚ) / ((max 1 (s5 + e5) : Nat) : ℚ)
    let inc1 := can_increase && decide (recent_2min_429 = 0) && decide (s2 > 0)
      && decide (e2 = 0) && decide (usage ≤ 8/10) && decide (p95 ≤ base * (11/10))
    let inc2 := can_increase && decide (s5 > 0) && decide (usage ≤ 85/100)
      && decide (errRate5 < 5/1000)
    let inc3 := can_increase
      && decide ((m.current_concurrency : ℤ) < recommended - 1)
    let dec1 := decide (usage ≥ 95/100) && decide (p95 ≥ base * (13/10))
    let dec2 := decide (s5 > 0) && decide (errRate5 ≥ 1/100)
    if inc1 || inc2 || inc3 then
      { m' with current_concurrency := min 10 (m'.current_concurrency + 1),
                last_concurrency_increase := now }
    else if dec1 || dec2 then
      { m' with current_concurrency := max 1 (m'.current_concurrency - 1) }
    else m'

/-- `_evaluate_concurrency_adjustment` (lines 269-378) as a whole: the
early-out guard (line 278) followed by the locked part. -/
def evaluateAdjust (cfg : RCConfig) (m : HostMetrics) (now : ℚ) :
    HostMetrics :=
  if ¬ m.warmup_completed ∨ m.base_rtt = none then m
  else evaluateAdjustLocked cfg m now

/-- The locked section of `_record_error` (lines 216-221). -/
def record_error_state (m : HostMetrics) (now : ℚ) : HostMetrics :=
  { m with error_times := m.error_times ++ [now],
           network_error_count := m.network_error_count + 1 }

/-! ### Lock-level model of `_record_success`

`_record_success` executes its whole body inside `async with self.lock`
and, still holding the lock, calls `_evaluate_concurrency_adjustment`,
which after its early-out guard (line 278) executes
`async with self.lock` again (line 285).  `asyncio.Lock` is not
reentrant: an `acquire` on a held lock waits until someone releases it,
and the only holder is the very coroutine that is waiting. -/

/-- Program locations of a task executing `_record_success`. -/
inductive RSLoc where
  | entry       -- about to acquire the lock (line 187)
  | body        -- lock held, executing the metric updates
  | evalGuard   -- at the warmup guard of the adjustment (line 278)
  | innerLock   -- at the inner `async with self.lock` (line 285)
  | finished    -- returned, lock released
deriving DecidableEq, Repr

/-- Configuration of the lock-level machine. -/
structure RSState where
  loc : RSLoc
  lockHeld : Bool
  m : HostMetrics
deriving DecidableEq, Repr

/-- One scheduler step of the task.  A blocked `acquire` leaves the
configuration unchanged (the task stays parked on the lock's wait
queue). -/
def record_success_step (cfg : RCConfig) (rtt now : ℚ)
    (c : RSState) : RSState :=
  match c.loc with
  | .entry =>
    if c.lockHeld then c
    else { c with loc := .body, lockHeld := true }
  | .body =>
    { c with loc := .evalGuard, m := record_success_body cfg c.m rtt now }
  | .evalGuard =>
    if ¬ c.m.warmup_completed ∨ c.m.base_rtt = none then
      { c with loc := .finished, lockHeld := false }
    else { c with loc := .innerLock }
  | .innerLock =>
    if c.lockHeld then c
    else { c with loc := .finished, lockHeld := false }
  | .finished => c

/-! ### Lock-aware multi-task semantics of the controller

Every mutation of `HostMetrics` performed by `_record_success` (line
187), `_record_error` (line 218) and `report_http_error` (line 231) sits
inside `async with self.lock`.  The machine below runs any number of
such coroutine invocations against the shared metrics and the single
non-reentrant lock, a demonic scheduler choosing which task advances at
each step; the lock is represented by the index of its owning task.  A
blocked `acquire` leaves the configuration unchanged.  The code past the
inner acquisition at line 285 -- the only code that can raise
`current_concurrency` -- is a genuine transition of this machine, taken
when that `acquire` finds the lock free; the ownership invariant below
shows the transition is never enabled from an initial configuration,
because the acquiring task is itself the holder. -/

/-- One queued controller coroutine: a successful response sample
(`_record_success`), a network error (`_record_error`), or an HTTP
error report (`report_http_error`). -/
inductive RCTaskKind where
  | success (rtt now : ℚ)
  | netError (now : ℚ)
  | httpReport (status : Nat) (now : ℚ)
deriving DecidableEq, Repr

/-- Program locations of such a coroutine; `evalGuard` (line 278) and
`innerLock` (line 285) are reached only by `success` tasks. -/
inductive RCLoc where
  | start
  | inBody
  | evalGuard
  | innerLock
  | done
deriving DecidableEq, Repr

/-- A task: its coroutine and its current location. -/
structure RCTask where
  kind : RCTaskKind
  loc : RCLoc
deriving DecidableEq, Repr

/-- A configuration: shared metrics, the lock's owner (`none` = free),
and the tasks, addressed by list index. -/
structure RCProg where
  m : HostMetrics
  lockOwner : Option Nat
  tasks : List RCTask
deriving DecidableEq, Repr

/-- One step of task `i`.  `start` acquires the outer lock if it is
free and parks otherwise.  Each locked block runs as one atomic step
(the coroutines never suspend while holding the lock, apart from the
inner `acquire` of line 285, which is its own location):
`_record_error` and `report_http_error` mutate and release on exit; a
`success` task still holds the lock at the adjustment guard, releases
on a failed guard, and otherwise moves to the inner `acquire` -- which
parks while the lock is held and, were the lock free, would run the
post-acquisition code `evaluateAdjustLocked` and release both
levels. -/
def taskStep (cfg : RCConfig) (i : Nat) (k : RCTaskKind) (loc : RCLoc)
    (m : HostMetrics) (owner : Option Nat) :
    RCLoc × HostMetrics × Option Nat :=
  match loc with
  | .start =>
    match owner with
    | none => (.inBody, m, some i)
    | some _ => (.start, m, owner)
  | .inBody =>
    match k with
    | .success rtt now =>
      (.evalGuard, record_success_body cfg m rtt now, owner)
    | .netError now => (.done, record_error_state m now, none)
    | .httpReport status now =>
      (.done, report_http_error_state m status now, none)
  | .evalGuard =>
    match k with
    | .success _ _ =>
      if ¬ m.warmup_completed ∨ m.base_rtt = none then (.done, m, none)
      else (.innerLock, m, owner)
    | _ => (.done, m, owner)
  | .innerLock =>
    match k with
    | .success _ now =>
      match owner with
      | none => (.done, evaluateAdjustLocked cfg m now, none)
      | some _ => (.innerLock, m, owner)
    | _ => (.done, m, owner)
  | .done => (.done, m, owner)

/-- Scheduler step: advance task `i` (an out-of-range index is a
no-op). -/
def progStep (cfg : RCConfig) (c : RCProg) (i : Nat) : RCProg :=
  match c.tasks[i]? with
  | none => c
  | some t =>
    let r := taskStep cfg i t.kind t.loc c.m c.lockOwner
    { m := r.2.1, lockOwner := r.2.2,
      tasks := c.tasks.set i { kind := t.kind, loc := r.1 } }

/-- The initial configuration: every coroutine before its
`async with self.lock`, the lock free. -/
def initProg (m0 : HostMetrics) (kinds : List RCTaskKind) : RCProg :=
  { m := m0, lockOwner := none,
    tasks := kinds.map (fun k => { kind := k, loc := RCLoc.start }) }

/-- Run a finite schedule of task indices. -/
def runSched (cfg : RCConfig) (c0 : RCProg) (sched : List Nat) : RCProg :=
  sched.foldl (progStep cfg) c0

/-- The lock-ownership invariant: a task whose location lies inside a
locked section is the lock's owner (so there is at most one such
task, and a parked inner `acquire` waits on itself). -/
def lockInv (c : RCProg) : Prop :=
  ∀ i t, c.tasks[i]? = some t →
    (t.loc = RCLoc.inBody ∨ t.loc = RCLoc.evalGuard ∨
      t.loc = RCLoc.innerLock) →
    c.lockOwner = some i

/-! ## Claims -/

/-- C3: the persistence step writes id-map and games-data exactly when the
rebuilt games list is non-empty and the per-id failure list is empty;
otherwise only the temporary file is produced. -/
theorem c3_persistence_gate (rebuilt_games : List Game)
    (failed_games : List String) :
    (save_and_backup_writes rebuilt_games failed_games =
      if rebuilt_games ≠ [] ∧ failed_games = [] then
        [WriteKey.tmpGames, WriteKey.idMap, WriteKey.gamesData]
      else [WriteKey.tmpGames]) ∧
    ((WriteKey.idMap ∈ save_and_backup_writes rebuilt_games failed_games ∧
      WriteKey.gamesData ∈ save_and_backup_writes rebuilt_games failed_games) ↔
      (rebuilt_games ≠ [] ∧ failed_games = [])) := by
  have hiff : (rebuilt_games.length > 0 ∧ failed_games.length = 0) ↔
      (rebuilt_games ≠ [] ∧ failed_games = []) := by
    simp [List.length_pos, List.length_eq_zero]
  constructor
  · unfold save_and_backup_writes
    by_cases h : rebuilt_games ≠ [] ∧ failed_games = []
    · rw [if_pos (hiff.mpr h), if_pos h]
    · rw [if_neg (fun hc => h (hiff.mp hc)), if_neg h]
  · unfold save_and_backup_writes
    by_cases h : rebuilt_games ≠ [] ∧ failed_games = []
    · rw [if_pos (hiff.mpr h)]
      simp [h]
    · rw [if_neg (fun hc => h (hiff.mp hc))]
      simp [h]

/-- C4 counterexample: the delete command writes both logical keys in one
run, and the first write is games-data, not id-map, contradicting the
claim that every such path issues the id-map write first. -/
theorem c4_write_order_counterexample :
    (delete_games_command ["1"] [{ id := "1" }] [{ id := "1" }]).writes =
      [WriteKey.gamesData, WriteKey.idMap] ∧
    (delete_games_command ["1"] [{ id := "1" }] [{ id := "1" }]).writes.head? ≠
      some WriteKey.idMap := by decide

/-- C4 amended: the update pipeline's persistence step does write id-map
before games-data, but the delete command writes games-data first and
id-map second, so an interruption there can leave the catalog ahead of the
id-map. -/
theorem c4_write_order_amended (rebuilt_games : List Game)
    (failed_games : List String) (delete_appids : List String)
    (games_data : List Game) (id_map_data : List IdEntry) :
    (save_and_backup_writes rebuilt_games failed_games = [WriteKey.tmpGames] ∨
      save_and_backup_writes rebuilt_games failed_games =
        [WriteKey.tmpGames, WriteKey.idMap, WriteKey.gamesData]) ∧
    ((delete_games_command delete_appids games_data id_map_data).writes = [] ∨
      (delete_games_command delete_appids games_data id_map_data).writes =
        [WriteKey.gamesData, WriteKey.idMap]) := by
  constructor
  · unfold save_and_backup_writes
    split
    · right; rfl
    · left; rfl
  · unfold delete_games_command
    split
    · left; rfl
    · right; rfl

/-- The appdetails payload driving the C5 counterexample: minor units
`initial = 100000`, `final = 99999`, a 0.001 % discount. -/
def c5_payload : AppData :=
  { is_free := false,
    price_overview := some { final := 99999, initial := 100000, discount_percent := 0 } }

/-- C5 counterexample: the deal synthesized from this Storefront payload
has `price = 999`, `regular = 1000` and yet `cut = 0` (the float
truncation of 0.1), so `cut = 0` does not imply `price = regular`. -/
theorem c5_cut_counterexample :
    (build_steam_deal (regularOf (some (extract_price_from_api c5_payload)))
      (saleOf (some (extract_price_from_api c5_payload)))).cut = 0 ∧
    (build_steam_deal (regularOf (some (extract_price_from_api c5_payload)))
      (saleOf (some (extract_price_from_api c5_payload)))).price ≠
    (build_steam_deal (regularOf (some (extract_price_from_api c5_payload)))
      (saleOf (some (extract_price_from_api c5_payload)))).regular := by
  decide

/-- C5 amended: every deal synthesized from Storefront data has
`cut ∈ [0, 100]` and `price = regular` implies `cut = 0`; the converse
fails (see the counterexample), and deals taken from the price-history
batch are passed through without validation. -/
theorem c5_cut_amended (regular_price sale_price : Option Nat) :
    0 ≤ (build_steam_deal regular_price sale_price).cut ∧
    (build_steam_deal regular_price sale_price).cut ≤ 100 ∧
    ((build_steam_deal regular_price sale_price).price =
        (build_steam_deal regular_price sale_price).regular →
      (build_steam_deal regular_price sale_price).cut = 0) := by
  unfold build_steam_deal
  match sale_price, regular_price with
  | none, rp => simp
  | some s, none => simp
  | some s, some r =>
    by_cases h : s < r
    · have hr : 0 < r := Nat.lt_of_le_of_lt (Nat.zero_le s) h
      have hcut : (r - s) * 100 / r ≤ 100 := by
        have hle : (r - s) * 100 ≤ 100 * r := by
          calc (r - s) * 100 ≤ r * 100 := Nat.mul_le_mul_right 100 (Nat.sub_le r s)
            _ = 100 * r := Nat.mul_comm r 100
        calc (r - s) * 100 / r ≤ 100 * r / r :=
              Nat.div_le_div_right hle
          _ = 100 := Nat.mul_div_cancel 100 hr
      simp only [if_pos h, if_pos hr]
      refine ⟨by positivity, by exact_mod_cast hcut, ?_⟩
      intro hpr
      exact absurd (MVal.int.inj hpr) (by omega)
    · simp [if_neg h]

/-- The appdetails payload driving the C6 counterexample:
`initial = final = 150` minor units. -/
def c6_payload : AppData :=
  { is_free := false,
    price_overview := some { final := 150, initial := 150, discount_percent := 0 } }

/-- C5 amended witness: the bounds at a concrete synthesized deal. -/
theorem c5_cut_amended_witness :
    0 ≤ (build_steam_deal (some 1000) (some 999)).cut ∧
    (build_steam_deal (some 1000) (some 999)).cut ≤ 100 ∧
    ((build_steam_deal (some 1000) (some 999)).price =
        (build_steam_deal (some 1000) (some 999)).regular →
      (build_steam_deal (some 1000) (some 999)).cut = 0) :=
  c5_cut_amended (some 1000) (some 999)

/-- C6 counterexample: for `initial = final = 150` minor units the code
stores `price = 1` (truncation of 1.5) while the claim's ceiling of
`150/100` is 2. -/
theorem c6_price_extraction_counterexample :
    (extract_price_from_api c6_payload).price = some 1 ∧
    Int.ceil ((150 : ℚ) / 100) = 2 := by
  constructor
  · decide
  · norm_num [Int.ceil_eq_iff]

/-- C6 amended: price extraction as the code computes it -- free games
price 0; no `price_overview` leaves the fields unset; a zero `final`
prices at 0; otherwise the price is the floor (not the ceiling) of
`initial/100`, or of `final/100` when `initial` is 0; `salePrice` is the
floor of `final/100` exactly when `initial > final > 0`. -/
theorem c6_price_extraction_amended (o : Option PriceOverview)
    (po : PriceOverview) :
    ((extract_price_from_api { is_free := true, price_overview := o }).price =
      some 0) ∧
    (extract_price_from_api { is_free := false, price_overview := none } = {}) ∧
    ((extract_price_from_api { is_free := false, price_overview := some po }).price =
      some (if po.final = 0 then 0
        else if 0 < po.initial then po.initial / 100 else po.final / 100)) ∧
    ((extract_price_from_api { is_free := false, price_overview := some po }).salePrice =
      if po.initial > po.final ∧ 0 < po.final then some (po.final / 100)
      else none) ∧
    (po.initial / 100 = Nat.floor ((po.initial : ℚ) / 100)) := by
  refine ⟨rfl, rfl, ?_, ?_, ?_⟩
  · unfold extract_price_from_api
    by_cases hf : po.final = 0
    · simp [hf]
    · by_cases hs : po.initial > po.final ∧ 0 < po.final
      · simp [hf, hs]
      · simp [hf, hs]
  · unfold extract_price_from_api
    by_cases hf : po.final = 0
    · have hcond : ¬ (po.initial > po.final ∧ 0 < po.final) := by omega
      simp [hf, hcond]
    · by_cases hs : po.initial > po.final ∧ 0 < po.final
      · simp [hf, hs]
      · simp [hf, hs]
  · have h100 : ((100 : ℚ)) = ((100 : ℕ) : ℚ) := by norm_num
    rw [h100, Nat.floor_div_nat, Nat.floor_natCast]

theorem sortedInsert_perm (le : α → α → Bool) (l : List α) (x : α) :
    List.Perm (sortedInsert le l x) (x :: l) := by
  induction l with
  | nil => simp only [sortedInsert]; exact List.Perm.refl _
  | cons y ys ih =>
    simp only [sortedInsert]
    split
    · exact (ih.cons y).trans (List.Perm.swap x y ys)
    · exact List.Perm.refl _

theorem sortStable_perm (le : α → α → Bool) (l : List α) :
    List.Perm (sortStable le l) l := by
  suffices h : ∀ init : List α,
      List.Perm (l.foldl (sortedInsert le) init) (init ++ l) by
    simpa [sortStable] using h []
  induction l with
  | nil => intro init; simp only [List.foldl_nil, List.append_nil]; exact List.Perm.refl init
  | cons x xs ih =>
    intro init
    have h1 : (x :: xs).foldl (sortedInsert le) init
        = xs.foldl (sortedInsert le) (sortedInsert le init x) := by
      simp [List.foldl_cons]
    rw [h1]
    have h2 := ih (sortedInsert le init x)
    have h3 := (sortedInsert_perm le init x).append_right xs
    exact (h2.trans h3).trans List.perm_middle.symm

/-- Every retained candidate scores at least the candidate threshold. -/
theorem score_of_mem_candidates (simFn : List Char → List Char → ℚ)
    (title : String) (apps : List AppEntry) (c : Candidate)
    (h : c ∈ resolver_candidates simFn title apps) :
    SCORE_CANDIDATE_THRESHOLD ≤ c.score := by
  simp only [resolver_candidates, List.mem_filterMap] at h
  obtain ⟨app, -, heq⟩ := h
  cases happ : app.appid with
  | none => rw [happ] at heq; simp at heq
  | some aid =>
    rw [happ] at heq
    simp only at heq
    split at heq
    · simp at heq
    · split at heq
      · simp at heq
      · split at heq
        · rename_i hscore
          cases heq
          exact hscore
        · simp at heq

/-- C7 counterexample: for the line `abc` and an app list holding one
substring match of score 75 (below the auto-accept threshold 80), the
resolver returns it as an accepted match, refuting the claim that a top
score in `[60, 80)` is not auto-accepted. -/
theorem c7_resolver_counterexample :
    find_best_match (fun _ _ => 0) "abc"
      [{ appid := some 10, name := "abcdefghijklmnopqr" }] =
      .found { appid := 10, name := "abcdefghijklmnopqr", score := 75 } ∧
    (75 : Nat) < SCORE_AUTO_ACCEPT_THRESHOLD ∧
    SCORE_CANDIDATE_THRESHOLD ≤ 75 := by decide

/-- C7 amended: candidates are retained only at score ≥ 60, and a
`multiple` (ambiguous) result is returned exactly when more than one
candidate scores 100; but whenever any candidate survives and at most one
is an exact match, the top candidate is returned as an accepted match --
the ≥ 80 auto-accept threshold is checked and then ignored, so scores in
`[60, 80)` are auto-accepted as well. -/
theorem c7_resolver_amended (simFn : List Char → List Char → ℚ)
    (title : String) (apps : List AppEntry) :
    (∀ c, find_best_match simFn title apps = .found c →
      c ∈ resolver_candidates simFn title apps ∧
      SCORE_CANDIDATE_THRESHOLD ≤ c.score) ∧
    (∀ ms, find_best_match simFn title apps = .multiple ms →
      1 < ms.length ∧ ∀ c ∈ ms, c.score = SCORE_EXACT_MATCH) ∧
    (resolver_candidates simFn title apps ≠ [] →
      ((resolver_candidates simFn title apps).filter
          (fun c => c.score = SCORE_EXACT_MATCH)).length ≤ 1 →
      ∃ c, find_best_match simFn title apps = .found c) := by
  refine ⟨?_, ?_, ?_⟩
  · intro c h
    simp only [find_best_match] at h
    split at h
    · exact absurd h (by simp)
    · split at h
      · exact absurd h (by simp)
      · cases hs : sortStable (fun a b => b.score ≤ a.score)
            (resolver_candidates simFn title apps) with
        | nil => rw [hs] at h; simp at h
        | cons c' rest =>
          rw [hs] at h
          simp only [ite_self, MatchResult.found.injEq] at h
          subst h
          have hc' : c' ∈ sortStable (fun a b => b.score ≤ a.score)
              (resolver_candidates simFn title apps) := by
            rw [hs]; exact List.mem_cons_self c' rest
          rw [mem_sortStable] at hc'
          exact ⟨hc', score_of_mem_candidates simFn title apps c' hc'⟩
  · intro ms h
    simp only [find_best_match] at h
    split at h
    · exact absurd h (by simp)
    · split at h
      · rename_i hlen
        simp only [MatchResult.multiple.injEq] at h
        subst h
        refine ⟨hlen, ?_⟩
        intro c hc
        have hmem := List.mem_filter.mp hc
        simpa using hmem.2
      · cases hs : sortStable (fun a b => b.score ≤ a.score)
            (resolver_candidates simFn title apps) with
        | nil => rw [hs] at h; simp at h
        | cons c' rest =>
          rw [hs] at h
          simp only [ite_self] at h
          simp at h
  · intro hne hexact
    simp only [find_best_match]
    split
    · rename_i hemp
      exact absurd (List.isEmpty_iff.mp hemp) hne
    · split
      · rename_i hlen
        exfalso
        have hperm := (sortStable_perm (fun a b => b.score ≤ a.score)
            (resolver_candidates simFn title apps)).filter
          (fun c => decide (c.score = SCORE_EXACT_MATCH))
        rw [List.Perm.length_eq hperm] at hlen
        omega
      · cases hs : sortStable (fun a b => b.score ≤ a.score)
            (resolver_candidates simFn title apps) with
        | nil =>
          rw [sortStable_eq_nil] at hs
          exact absurd hs hne
        | cons c' rest =>
          refine ⟨c', ?_⟩
          simp [ite_self]

/-- C7 amended witness: a single exact match is returned as an accepted
match. -/
theorem c7_resolver_amended_witness :
    ∃ c, find_best_match (fun _ _ => 0) "zz"
      [{ appid := some 3, name := "zz" }] = .found c :=
  (c7_resolver_amended (fun _ _ => 0) "zz"
    [{ appid := some 3, name := "zz" }]).2.2 (by decide) (by decide)

/-- C2: in every mode (diff-refresh, append normal, append batch), when
the first price-history batch returns zero usable entries while the
submitted id list was non-empty, the run raises and terminates with no
write to id-map or games-data. -/
theorem c2_abort_before_write :
    (∀ inp : DiffInputs, inp.hasItadClient = true →
      itadEnabledIds inp ≠ [] → inp.jpyDeals = [] →
      run_differential inp = (none, [])) ∧
    (∀ inp : NormalInputs, inp.hasItadClient = true →
      newItadIds inp.id_map inp.new_ids ≠ [] → inp.jpyDeals = [] →
      run_normal inp = (none, [])) ∧
    (∀ inp : BatchInputs, inp.target_ids ≠ [] → inp.hasItadClient = true →
      newItadIds inp.id_map inp.target_ids ≠ [] → inp.jpyDeals = [] →
      run_batch inp = (none, [])) := by
  refine ⟨?_, ?_, ?_⟩
  · intro inp h1 h2 h3
    simp [run_differential, rebuild_differential_update, h1, h2, h3]
  · intro inp h1 h2 h3
    simp [run_normal, process_normal_mode, h1, h2, h3]
  · intro inp ht h1 h2 h3
    have hlen : inp.target_ids.length ≠ 0 := by
      simpa [List.length_eq_zero] using ht
    simp [run_batch, process_batch_mode, hlen, h1, h2, h3]

/-- Concrete diff-refresh input for the C2 witness: one id with a
history-id, an empty first batch. -/
def c2_diff_input : DiffInputs :=
  { id_map := [{ id := "1", itadId := some "x" }],
    existing_games := [{ id := "1" }],
    hasItadClient := true, jpyDeals := [], usdDeals := [],
    steamFetch := fun _ => none, tagsOf := fun _ => [] }

/-- Concrete append normal-mode input for the C2 witness. -/
def c2_normal_input : NormalInputs :=
  { new_ids := ["1"], id_map := [{ id := "1", itadId := some "x" }],
    existing_games := [], hasItadClient := true, jpyDeals := [],
    usdDeals := [], steamFetch := fun _ => none, tagsOf := fun _ => [] }

/-- Concrete append batch-mode input for the C2 witness. -/
def c2_batch_input : BatchInputs :=
  { target_ids := ["1"], start_index := 0,
    id_map := [{ id := "1", itadId := some "x" }],
    existing_games := [], checkpointGames := [], hasItadClient := true,
    jpyDeals := [], steamFetch := fun _ => none, tagsOf := fun _ => [] }

/-- C2 witness: the abort with no writes, at concrete inputs, in all
three modes. -/
theorem c2_abort_before_write_witness :
    run_differential c2_diff_input = (none, []) ∧
    run_normal c2_normal_input = (none, []) ∧
    run_batch c2_batch_input = (none, []) :=
  ⟨c2_abort_before_write.1 c2_diff_input rfl (by decide) rfl,
   c2_abort_before_write.2.1 c2_normal_input rfl (by decide) rfl,
   c2_abort_before_write.2.2 c2_batch_input (by decide) rfl (by decide) rfl⟩

/-- C9: in append normal mode, as soon as some new id has a history-id in
the id-map and its Storefront fetch succeeds, the bookkeeping at
`game_data_builder.py` line 845 evaluates the unbound name `itad_deal`
and the run raises `NameError` instead of completing; nothing is
persisted.  (The hypothesis on `jpyDeals` only rules out the earlier
empty-batch abort.) -/
theorem c9_name_error (inp : NormalInputs) (app_id : String)
    (happ : app_id ∈ inp.new_ids)
    (hitad : (idMapLookup inp.id_map app_id).isSome = true)
    (hsteam : (inp.steamFetch app_id).isSome = true)
    (habort : inp.hasItadClient = false ∨ inp.jpyDeals ≠ []) :
    process_normal_mode inp = .error .nameErrorItadDeal ∧
    run_normal inp = (none, []) := by
  have hloop : ∀ (l : List String) (dmj dmu : List (String × Deal)),
      app_id ∈ l →
      normalLoop inp dmj dmu l = .error .nameErrorItadDeal := by
    intro l
    induction l with
    | nil => intro dmj dmu h; simp at h
    | cons b rest ih =>
      intro dmj dmu h
      rcases List.mem_cons.mp h with heq | hmem
      · subst heq
        obtain ⟨sd, hsd⟩ := Option.isSome_iff_exists.mp hsteam
        obtain ⟨ti, hti⟩ := Option.isSome_iff_exists.mp hitad
        simp only [normalLoop]
        rw [hsd, hti]
      · simp only [normalLoop]
        cases hsf : inp.steamFetch b with
        | none => rw [ih dmj dmu hmem]; rfl
        | some sd =>
          cases him : idMapLookup inp.id_map b with
          | some t => rfl
          | none =>
            simp only [phase2Rebuild, hsf]
            rw [ih dmj dmu hmem]
            rfl
  have hmain : process_normal_mode inp = .error .nameErrorItadDeal := by
    simp only [process_normal_mode]
    split
    · -- the batch maps were fetched: `dealMapJ = inp.jpyDeals`
      rename_i hfe
      rcases habort with hfalse | hne
      · exact absurd hfe.1 (by simp [hfalse])
      · rw [if_neg (fun hc => hne hc.2), hloop inp.new_ids _ _ happ]
        rfl
    · -- no fetch happened: `dealMapJ = []`
      rename_i hfe
      rw [if_neg (fun hc => hfe hc.1), hloop inp.new_ids _ _ happ]
      rfl
  exact ⟨hmain, by rw [run_normal, hmain]⟩

/-- Concrete append normal-mode input for the C9 witness: one new id with
a history-id, non-empty batch, successful Storefront fetch. -/
def c9_input : NormalInputs :=
  { new_ids := ["1"], id_map := [{ id := "1", itadId := some "x" }],
    existing_games := [], hasItadClient := true,
    jpyDeals := [("x",
      { price := .int 100, regular := .int 100, cut := 0, storeLow := .dash })],
    usdDeals := [], steamFetch := fun _ => some {}, tagsOf := fun _ => [] }

/-- C9 witness: the `NameError` abort at a concrete input. -/
theorem c9_name_error_witness :
    process_normal_mode c9_input = .error .nameErrorItadDeal ∧
    run_normal c9_input = (none, []) :=
  c9_name_error c9_input "1" (by decide) (by decide) (by decide)
    (Or.inr (by decide))

theorem gameLookup_id (games : List Game) (a : String) (g : Game)
    (h : gameLookup games a = some g) : g.id = a := by
  unfold gameLookup at h
  have hp := List.find?_some h
  simpa using hp

/-- Phase 1 classifies an id as unchanged, or as needing the Phase 1.5
comparison, only when the id is present in the catalog dictionary. -/
theorem phase1_lookup_isSome (inp : DiffInputs) (dmj : List (String × Deal))
    (l : List String) :
    ∀ a, (a ∈ (phase1Classify inp dmj l).2.1 ∨
        a ∈ (phase1Classify inp dmj l).2.2.2) →
      (gameLookup inp.existing_games a).isSome = true := by
  induction l with
  | nil => intro a ha; simp [phase1Classify] at ha
  | cons b rest ih =>
    intro a ha
    cases hg : gameLookup inp.existing_games b with
    | none =>
      simp only [phase1Classify, hg] at ha
      exact ih a ha
    | some g =>
      by_cases hflag : noItadFlag g
      · simp only [phase1Classify, hg, if_pos hflag] at ha
        rcases ha with h1 | h2
        · exact ih a (Or.inl h1)
        · rcases List.mem_cons.mp h2 with rfl | h2'
          · simp [hg]
          · exact ih a (Or.inr h2')
      · cases him : idMapLookup inp.id_map b with
        | none =>
          simp only [phase1Classify, hg, if_neg hflag, him] at ha
          exact ih a ha
        | some t =>
          cases hd : dictLookup dmj t with
          | none =>
            simp only [phase1Classify, hg, if_neg hflag, him, hd] at ha
            exact ih a ha
          | some dj =>
            by_cases hdash : dj.price = .dash ∧ dj.regular = .dash
            · simp only [phase1Classify, hg, if_neg hflag, him, hd,
                if_pos hdash] at ha
              exact ih a ha
            · by_cases hdiff : dj.price ≠ kvPrice g.dealJPY ∨
                  dj.cut ≠ kvCut g.dealJPY
              · simp only [phase1Classify, hg, if_neg hflag, him, hd,
                  if_neg hdash, if_pos hdiff] at ha
                exact ih a ha
              · simp only [phase1Classify, hg, if_neg hflag, him, hd,
                  if_neg hdash, if_neg hdiff] at ha
                rcases ha with h1 | h2
                · rcases List.mem_cons.mp h1 with rfl | h1'
                  · simp [hg]
                  · exact ih a (Or.inl h1')
                · exact ih a (Or.inr h2)

/-- Phase 1.5 marks as unchanged only ids taken from its input list. -/
theorem phase15_noc_sub (inp : DiffInputs) (l : List String) :
    ∀ a ∈ (phase15Classify inp l).2, a ∈ l := by
  induction l with
  | nil => simp [phase15Classify]
  | cons b rest ih =>
    intro a ha
    cases hs : inp.steamFetch b with
    | none =>
      simp only [phase15Classify, hs] at ha
      rcases List.mem_cons.mp ha with rfl | h'
      · exact List.mem_cons_self a rest
      · exact List.mem_cons_of_mem b (ih a h')
    | some sd =>
      simp only [phase15Classify, hs] at ha
      split at ha
      · exact List.mem_cons_of_mem b (ih a ha)
      · rcases List.mem_cons.mp ha with rfl | h'
        · exact List.mem_cons_self a rest
        · exact List.mem_cons_of_mem b (ih a h')

/-- Copying records by dictionary lookup preserves the id sequence when
every id resolves. -/
theorem filterMap_gameLookup_map_id (games : List Game) (l : List String)
    (h : ∀ a ∈ l, (gameLookup games a).isSome = true) :
    (l.filterMap (gameLookup games)).map (fun g => g.id) = l := by
  induction l with
  | nil => simp
  | cons b rest ih =>
    have hb := h b (List.mem_cons_self b rest)
    obtain ⟨g, hg⟩ := Option.isSome_iff_exists.mp hb
    rw [List.filterMap_cons_some hg, List.map_cons,
      gameLookup_id games b g hg,
      ih (fun a ha => h a (List.mem_cons_of_mem b ha))]

/-- The Phase 2 loop rebuilds exactly the marked ids whose Storefront
fetch succeeds, in input order. -/
theorem phase2Loop_map_id (inp : DiffInputs) (dmj dmu : List (String × Deal))
    (l : List (String × Option String)) :
    (phase2Loop inp dmj dmu l).1.map (fun g => g.id) =
      l.filterMap
        (fun p => if (inp.steamFetch p.1).isSome then some p.1 else none) := by
  induction l with
  | nil => simp [phase2Loop]
  | cons hd rest ih =>
    obtain ⟨a, it⟩ := hd
    cases hs : inp.steamFetch a with
    | none =>
      have hreb : phase2Rebuild inp.hasItadClient dmj dmu inp.steamFetch
          inp.tagsOf a it = none := by
        simp [phase2Rebuild, hs]
      simp only [phase2Loop, hreb]
      rw [List.filterMap_cons_none (by simp [hs])]
      exact ih
    | some sd =>
      rw [@List.filterMap_cons_some (String × Option String) String
        (fun p => if (inp.steamFetch p.1).isSome then some p.1 else none)
        (a, it) rest a (by simp [hs])]
      simp only [phase2Loop, phase2Rebuild, hs, List.map_cons]
      rw [ih]
      rfl

/-- C1 amended: in diff-refresh mode the merged catalog is the unchanged
records (in id-map classification order) followed by the successfully
rebuilt updated records (in update order); an updated record is moved
behind all unchanged records instead of replacing its original in place,
and a marked id whose Storefront fetch fails is dropped. -/
theorem c1_merge_order_amended (inp : DiffInputs) (r : BuildResult)
    (h : rebuild_differential_update inp = .ok r) :
    r.rebuilt_games.map (fun g => g.id) =
      r.games_no_change ++ r.games_to_update.filterMap
        (fun p => if (inp.steamFetch p.1).isSome then some p.1 else none) := by
  simp only [rebuild_differential_update] at h
  split at h
  case isTrue =>
    split at h
    · exact absurd h (by simp)
    · simp only [Except.ok.injEq] at h
      subst h
      dsimp only
      rw [List.map_append, phase2Loop_map_id]
      congr 1
      refine filterMap_gameLookup_map_id inp.existing_games _ ?_
      intro a ha
      rcases List.mem_append.mp ha with h1 | h2
      · exact phase1_lookup_isSome inp _ _ a (Or.inl h1)
      · have hneed := phase15_noc_sub inp _ a h2
        exact phase1_lookup_isSome inp _ _ a (Or.inr hneed)
  case isFalse =>
    split at h
    · exact absurd h (by simp)
    · simp only [Except.ok.injEq] at h
      subst h
      dsimp only
      rw [List.map_append, phase2Loop_map_id]
      congr 1
      refine filterMap_gameLookup_map_id inp.existing_games _ ?_
      intro a ha
      rcases List.mem_append.mp ha with h1 | h2
      · exact phase1_lookup_isSome inp _ _ a (Or.inl h1)
      · have hneed := phase15_noc_sub inp _ a h2
        exact phase1_lookup_isSome inp _ _ a (Or.inr hneed)

/-- The stored deal of the pre-existing record with id 1 (JPY 1000, no
discount). -/
def c1_dealA : Deal :=
  { price := .int 1000, regular := .int 1000, cut := 0, storeLow := .dash }

/-- The stored deal of the pre-existing record with id 2 (JPY 2000, no
discount); the batch returns the identical quote, so id 2 is unchanged. -/
def c1_dealB : Deal :=
  { price := .int 2000, regular := .int 2000, cut := 0, storeLow := .dash }

/-- Diff-refresh input for the C1 counterexample: catalog order is
`[1, 2]`; the batch reports a price drop for id 1 only. -/
def c1_input : DiffInputs :=
  { id_map := [{ id := "1", itadId := some "x" },
               { id := "2", itadId := some "y" }],
    existing_games := [
      { id := "1", itadId := some "x", title := "A", dealJPY := some c1_dealA },
      { id := "2", itadId := some "y", title := "B", dealJPY := some c1_dealB }],
    hasItadClient := true,
    jpyDeals := [("x", { price := .int 500, regular := .int 1000, cut := 50,
                         storeLow := .int 400 }),
                 ("y", c1_dealB)],
    usdDeals := [("x", { price := .int 5, regular := .int 10, cut := 50,
                         storeLow := .int 4 }),
                 ("y", { price := .int 20, regular := .int 20, cut := 0,
                         storeLow := .int 15 })],
    steamFetch := fun _ => some
      { title := "A",
        pricesJP := some { price := some 1000, salePrice := some 500 },
        pricesUS := some { price := some 10, salePrice := some 5 } },
    tagsOf := fun _ => [] }

/-- C1 counterexample: the pre-existing catalog order is `[1, 2]`, id 1 is
updated and id 2 unchanged, and the merged catalog comes back as
`[2, 1]` -- the updated record did not keep its relative position. -/
theorem c1_merge_order_counterexample :
    c1_input.existing_games.map (fun g => g.id) = ["1", "2"] ∧
    (rebuild_differential_update c1_input).toOption.map
      (fun r => r.rebuilt_games.map (fun g => g.id)) = some ["2", "1"] := by
  decide

/-- C1 amended witness: the order characterization instantiated at the
concrete counterexample input. -/
theorem c1_merge_order_amended_witness :
    ∃ r, rebuild_differential_update c1_input = .ok r ∧
      r.rebuilt_games.map (fun g => g.id) =
        r.games_no_change ++ r.games_to_update.filterMap
          (fun p => if (c1_input.steamFetch p.1).isSome then some p.1
            else none) := by
  have hok : (rebuild_differential_update c1_input).toOption.isSome = true := by
    decide
  cases hr : rebuild_differential_update c1_input with
  | error e => rw [hr] at hok; simp [Except.toOption] at hok
  | ok r => exact ⟨r, rfl, c1_merge_order_amended c1_input r hr⟩

/-- `record_success_body` never touches `current_concurrency`. -/
theorem record_success_body_cc (cfg : RCConfig) (m : HostMetrics)
    (rtt now : ℚ) :
    (record_success_body cfg m rtt now).current_concurrency =
      m.current_concurrency := by
  simp [record_success_body, apply_ite HostMetrics.current_concurrency]

/-- `report_http_error` either keeps `current_concurrency` or halves it
with floor 1. -/
theorem report_http_error_state_cc (m : HostMetrics) (status : Nat)
    (now : ℚ) :
    (report_http_error_state m status now).current_concurrency =
        m.current_concurrency ∨
      (report_http_error_state m status now).current_concurrency =
        max 1 (m.current_concurrency / 2) := by
  unfold report_http_error_state
  split
  · exact Or.inr rfl
  · split
    · exact Or.inl rfl
    · exact Or.inl rfl

/-- Reading an index of a list after `set`: either the indices agree and
the stored element comes back, or the underlying list is read. -/
theorem getElem?_set_cases (l : List RCTask) (i j : Nat) (a u : RCTask)
    (h : (l.set i a)[j]? = some u) :
    (j = i ∧ u = a) ∨ (j ≠ i ∧ l[j]? = some u) := by
  by_cases hij : j = i
  · subst hij
    rw [List.getElem?_set_self'] at h
    refine Or.inl ⟨rfl, ?_⟩
    cases ht : l[j]? with
    | none => rw [ht] at h; exact absurd h (by simp)
    | some t0 =>
      rw [ht] at h
      simpa using h.symm
  · exact Or.inr ⟨hij, by rwa [List.getElem?_set_ne (Ne.symm hij)] at h⟩

/-- A step that keeps the lock owner preserves the ownership invariant,
provided the moving task only sits inside a locked section when it is
the owner. -/
theorem lockInv_keep (c : RCProg) (i : Nat) (k : RCTaskKind) (loc' : RCLoc)
    (m' : HostMetrics) (own' : Option Nat) (hsame : own' = c.lockOwner)
    (hown : (loc' = RCLoc.inBody ∨ loc' = RCLoc.evalGuard ∨
      loc' = RCLoc.innerLock) → own' = some i)
    (hinv : lockInv c) :
    lockInv { m := m', lockOwner := own',
              tasks := c.tasks.set i { kind := k, loc := loc' } } := by
  intro j u hju hl
  show own' = some j
  rcases getElem?_set_cases c.tasks i j _ u hju with ⟨hij, hu⟩ | ⟨hij, hju'⟩
  · subst hij
    subst hu
    exact hown hl
  · rw [hsame]
    exact hinv j u hju' hl

/-- Acquiring a free lock preserves the ownership invariant. -/
theorem lockInv_acquire (c : RCProg) (i : Nat) (k : RCTaskKind)
    (m' : HostMetrics) (hfree : c.lockOwner = none) (hinv : lockInv c) :
    lockInv { m := m', lockOwner := some i,
              tasks := c.tasks.set i { kind := k, loc := RCLoc.inBody } } := by
  intro j u hju hl
  show some i = some j
  rcases getElem?_set_cases c.tasks i j _ u hju with ⟨hij, -⟩ | ⟨hij, hju'⟩
  · rw [hij]
  · have hj := hinv j u hju' hl
    rw [hfree] at hj
    exact absurd hj (by simp)

/-- A locked task finishing and releasing the lock preserves the
ownership invariant: it was the only locked task. -/
theorem lockInv_release (c : RCProg) (i : Nat) (k : RCTaskKind) (t : RCTask)
    (m' : HostMetrics) (hti : c.tasks[i]? = some t)
    (hlocked : t.loc = RCLoc.inBody ∨ t.loc = RCLoc.evalGuard ∨
      t.loc = RCLoc.innerLock)
    (hinv : lockInv c) :
    lockInv { m := m', lockOwner := none,
              tasks := c.tasks.set i { kind := k, loc := RCLoc.done } } := by
  intro j u hju hl
  exfalso
  rcases getElem?_set_cases c.tasks i j _ u hju with ⟨hij, hu⟩ | ⟨hij, hju'⟩
  · subst hu
    rcases hl with h | h | h <;> simp at h
  · have hj := hinv j u hju' hl
    have hi := hinv i t hti hlocked
    rw [hj] at hi
    exact hij (Option.some.inj hi)

/-- A scheduler step on a present task, written out. -/
theorem progStep_eq (cfg : RCConfig) (c : RCProg) (i : Nat)
    (k : RCTaskKind) (l : RCLoc) (hti : c.tasks[i]? = some ⟨k, l⟩) :
    progStep cfg c i =
      { m := (taskStep cfg i k l c.m c.lockOwner).2.1,
        lockOwner := (taskStep cfg i k l c.m c.lockOwner).2.2,
        tasks := c.tasks.set i
          { kind := k, loc := (taskStep cfg i k l c.m c.lockOwner).1 } } := by
  unfold progStep
  rw [hti]

/-- Initially no task holds the lock, so the invariant holds. -/
theorem lockInv_initProg (m0 : HostMetrics) (kinds : List RCTaskKind) :
    lockInv (initProg m0 kinds) := by
  intro i t hti hl
  simp only [initProg, List.getElem?_map] at hti
  cases hk : kinds[i]? with
  | none => rw [hk] at hti; exact absurd hti (by simp)
  | some k =>
    rw [hk, Option.map_some'] at hti
    have ht := Option.some.inj hti
    rw [← ht] at hl
    simp at hl

/-- Every scheduler step preserves the lock-ownership invariant; in
particular the enabled-inner-acquire branch (the only one that could run
`evaluateAdjustLocked`) is contradictory. -/
theorem lockInv_progStep (cfg : RCConfig) (c : RCProg) (i : Nat)
    (hinv : lockInv c) : lockInv (progStep cfg c i) := by
  cases hti : c.tasks[i]? with
  | none =>
    have h : progStep cfg c i = c := by unfold progStep; rw [hti]
    rw [h]
    exact hinv
  | some t =>
    obtain ⟨k, l⟩ := t
    rw [progStep_eq cfg c i k l hti]
    cases l with
    | start =>
      cases howner : c.lockOwner with
      | none =>
        exact lockInv_acquire c i k c.m howner hinv
      | some w =>
        exact lockInv_keep c i k RCLoc.start c.m (some w) howner.symm
          (fun h => by simp at h) hinv
    | inBody =>
      cases k with
      | success rtt now =>
        exact lockInv_keep c i (RCTaskKind.success rtt now) RCLoc.evalGuard
          (record_success_body cfg c.m rtt now) c.lockOwner rfl
          (fun _ => hinv i ⟨RCTaskKind.success rtt now, RCLoc.inBody⟩ hti
            (Or.inl rfl)) hinv
      | netError now =>
        exact lockInv_release c i (RCTaskKind.netError now)
          ⟨RCTaskKind.netError now, RCLoc.inBody⟩
          (record_error_state c.m now) hti (Or.inl rfl) hinv
      | httpReport status now =>
        exact lockInv_release c i (RCTaskKind.httpReport status now)
          ⟨RCTaskKind.httpReport status now, RCLoc.inBody⟩
          (report_http_error_state c.m status now) hti (Or.inl rfl) hinv
    | evalGuard =>
      cases k with
      | success rtt now =>
        by_cases hg : ¬ c.m.warmup_completed ∨ c.m.base_rtt = none
        · have hstep : taskStep cfg i (RCTaskKind.success rtt now)
              RCLoc.evalGuard c.m c.lockOwner = (RCLoc.done, c.m, none) := by
            simp only [taskStep]
            rw [if_pos hg]
          rw [hstep]
          exact lockInv_release c i (RCTaskKind.success rtt now)
            ⟨RCTaskKind.success rtt now, RCLoc.evalGuard⟩ c.m hti
            (Or.inr (Or.inl rfl)) hinv
        · have hstep : taskStep cfg i (RCTaskKind.success rtt now)
              RCLoc.evalGuard c.m c.lockOwner =
              (RCLoc.innerLock, c.m, c.lockOwner) := by
            simp only [taskStep]
            rw [if_neg hg]
          rw [hstep]
          exact lockInv_keep c i (RCTaskKind.success rtt now) RCLoc.innerLock
            c.m c.lockOwner rfl
            (fun _ => hinv i ⟨RCTaskKind.success rtt now, RCLoc.evalGuard⟩
              hti (Or.inr (Or.inl rfl))) hinv
      | netError now =>
        exact lockInv_keep c i (RCTaskKind.netError now) RCLoc.done c.m
          c.lockOwner rfl (fun h => by simp at h) hinv
      | httpReport status now =>
        exact lockInv_keep c i (RCTaskKind.httpReport status now) RCLoc.done
          c.m c.lockOwner rfl (fun h => by simp at h) hinv
    | innerLock =>
      cases k with
      | success rtt now =>
        cases howner : c.lockOwner with
        | none =>
          exfalso
          have h := hinv i ⟨RCTaskKind.success rtt now, RCLoc.innerLock⟩ hti
            (Or.inr (Or.inr rfl))
          rw [howner] at h
          exact absurd h (by simp)
        | some w =>
          exact lockInv_keep c i (RCTaskKind.success rtt now) RCLoc.innerLock
            c.m (some w) howner.symm
            (fun _ => by
              rw [← howner]
              exact hinv i ⟨RCTaskKind.success rtt now, RCLoc.innerLock⟩ hti
                (Or.inr (Or.inr rfl))) hinv
      | netError now =>
        exact lockInv_keep c i (RCTaskKind.netError now) RCLoc.done c.m
          c.lockOwner rfl (fun h => by simp at h) hinv
      | httpReport status now =>
        exact lockInv_keep c i (RCTaskKind.httpReport status now) RCLoc.done
          c.m c.lockOwner rfl (fun h => by simp at h) hinv
    | done =>
      exact lockInv_keep c i k RCLoc.done c.m c.lockOwner rfl
        (fun h => by simp at h) hinv

/-- Under the invariant, one scheduler step either keeps
`current_concurrency` or halves it with floor 1: no reachable step runs
the increase code at line 368, which hides behind the inner acquisition
of line 285. -/
theorem progStep_cc (cfg : RCConfig) (c : RCProg) (i : Nat)
    (hinv : lockInv c) :
    (progStep cfg c i).m.current_concurrency = c.m.current_concurrency ∨
      (progStep cfg c i).m.current_concurrency =
        max 1 (c.m.current_concurrency / 2) := by
  cases hti : c.tasks[i]? with
  | none =>
    have h : progStep cfg c i = c := by unfold progStep; rw [hti]
    rw [h]
    exact Or.inl rfl
  | some t =>
    obtain ⟨k, l⟩ := t
    rw [progStep_eq cfg c i k l hti]
    cases l with
    | start =>
      cases howner : c.lockOwner with
      | none => exact Or.inl rfl
      | some w => exact Or.inl rfl
    | inBody =>
      cases k with
      | success rtt now =>
        exact Or.inl (record_success_body_cc cfg c.m rtt now)
      | netError now => exact Or.inl rfl
      | httpReport status now =>
        exact report_http_error_state_cc c.m status now
    | evalGuard =>
      cases k with
      | success rtt now =>
        by_cases hg : ¬ c.m.warmup_completed ∨ c.m.base_rtt = none
        · have hstep : taskStep cfg i (RCTaskKind.success rtt now)
              RCLoc.evalGuard c.m c.lockOwner = (RCLoc.done, c.m, none) := by
            simp only [taskStep]
            rw [if_pos hg]
          rw [hstep]
          exact Or.inl rfl
        · have hstep : taskStep cfg i (RCTaskKind.success rtt now)
              RCLoc.evalGuard c.m c.lockOwner =
              (RCLoc.innerLock, c.m, c.lockOwner) := by
            simp only [taskStep]
            rw [if_neg hg]
          rw [hstep]
          exact Or.inl rfl
      | netError now => exact Or.inl rfl
      | httpReport status now => exact Or.inl rfl
    | innerLock =>
      cases k with
      | success rtt now =>
        cases howner : c.lockOwner with
        | none =>
          exfalso
          have h := hinv i ⟨RCTaskKind.success rtt now, RCLoc.innerLock⟩ hti
            (Or.inr (Or.inr rfl))
          rw [howner] at h
          exact absurd h (by simp)
        | some w => exact Or.inl rfl
      | netError now => exact Or.inl rfl
      | httpReport status now => exact Or.inl rfl
    | done => exact Or.inl rfl

/-- Under the invariant, `current_concurrency` never grows along a step
and stays at least 1 if it was. -/
theorem progStep_cc_le (cfg : RCConfig) (c : RCProg) (i : Nat)
    (hinv : lockInv c) (h1 : 1 ≤ c.m.current_concurrency) :
    (progStep cfg c i).m.current_concurrency ≤ c.m.current_concurrency ∧
      1 ≤ (progStep cfg c i).m.current_concurrency := by
  rcases progStep_cc cfg c i hinv with h | h <;> rw [h] <;>
    exact ⟨by omega, by omega⟩

/-- Running any schedule from an initial configuration keeps the
invariant and keeps `current_concurrency` at least 1. -/
theorem runSched_inv (cfg : RCConfig) (sched : List Nat) (c0 : RCProg)
    (hinv : lockInv c0) (h1 : 1 ≤ c0.m.current_concurrency) :
    lockInv (runSched cfg c0 sched) ∧
      1 ≤ (runSched cfg c0 sched).m.current_concurrency := by
  induction sched generalizing c0 with
  | nil => exact ⟨hinv, h1⟩
  | cons s rest ih =>
    exact ih (progStep cfg c0 s) (lockInv_progStep cfg c0 s hinv)
      (progStep_cc_le cfg c0 s hinv h1).2

/-- C8: in every reachable controller state, the step of a task
reporting an HTTP 429 inside its locked section halves
`current_concurrency` with floor 1 and stamps the backoff time in that
same step; and no scheduler step from a reachable state increases
`current_concurrency` -- in particular none within 30 seconds of the
429.  The only increase site, `rate_controller.py` line 368, lies
behind the inner lock acquisition of line 285, which by the ownership
invariant is never found free by the task that reaches it (the C10
deadlock), so the increase transition is never enabled. -/
theorem c8_rate_429 (cfg : RCConfig) (m0 : HostMetrics)
    (kinds : List RCTaskKind) (sched : List Nat) (j : Nat)
    (hcc : 1 ≤ m0.current_concurrency) :
    (∀ (c : RCProg) (i : Nat) (now : ℚ) (t : RCTask),
        c.tasks[i]? = some t → t.kind = RCTaskKind.httpReport 429 now →
        t.loc = RCLoc.inBody →
        (progStep cfg c i).m.current_concurrency =
            max 1 (c.m.current_concurrency / 2) ∧
          (progStep cfg c i).m.last_backoff_time = now) ∧
      (progStep cfg (runSched cfg (initProg m0 kinds) sched)
          j).m.current_concurrency ≤
        (runSched cfg (initProg m0 kinds) sched).m.current_concurrency := by
  constructor
  · intro c i now t hti hk hl
    obtain ⟨k, l⟩ := t
    change k = RCTaskKind.httpReport 429 now at hk
    change l = RCLoc.inBody at hl
    subst hk
    subst hl
    rw [progStep_eq cfg c i (RCTaskKind.httpReport 429 now) RCLoc.inBody hti]
    constructor
    · show (report_http_error_state c.m 429 now).current_concurrency = _
      simp [report_http_error_state]
    · show (report_http_error_state c.m 429 now).last_backoff_time = now
      simp [report_http_error_state]
  · have hrun := runSched_inv cfg sched (initProg m0 kinds)
      (lockInv_initProg m0 kinds) hcc
    exact (progStep_cc_le cfg (runSched cfg (initProg m0 kinds) sched) j
      hrun.1 hrun.2).1

/-- The Storefront-like controller configuration used by the C8
witness. -/
def c8_wcfg : RCConfig :=
  { target_rps := 1, window_seconds := 60, window_limit := 100 }

/-- The C8 witness task mix: one 429 report and one success sample. -/
def c8_wkinds : List RCTaskKind :=
  [RCTaskKind.httpReport 429 10, RCTaskKind.success (3/2) 20]

/-- A concrete reachable configuration for the C8 witness: the 429
report holds the lock inside its locked section. -/
def c8_wprog : RCProg :=
  { m := {}, lockOwner := some 0,
    tasks := [{ kind := RCTaskKind.httpReport 429 10,
                loc := RCLoc.inBody }] }

/-- C8 witness: the same-step halving and backoff stamp at a concrete
locked 429 report, and a non-increasing scheduler step after a concrete
schedule of the witness task mix. -/
theorem c8_rate_429_witness :
    ((progStep c8_wcfg c8_wprog 0).m.current_concurrency =
        max 1 (c8_wprog.m.current_concurrency / 2) ∧
      (progStep c8_wcfg c8_wprog 0).m.last_backoff_time = 10) ∧
    (progStep c8_wcfg (runSched c8_wcfg (initProg {} c8_wkinds) [0, 1, 1])
        1).m.current_concurrency ≤
      (runSched c8_wcfg (initProg {} c8_wkinds)
        [0, 1, 1]).m.current_concurrency :=
  ⟨(c8_rate_429 c8_wcfg {} c8_wkinds [0, 1, 1] 1 (by decide)).1 c8_wprog 0
      10 { kind := RCTaskKind.httpReport 429 10, loc := RCLoc.inBody } rfl
      rfl rfl,
   (c8_rate_429 c8_wcfg {} c8_wkinds [0, 1, 1] 1 (by decide)).2⟩

/-- C10: the controller configuration for the deadlock witness. -/
def c10_cfg : RCConfig :=
  { target_rps := 1, window_seconds := 60, window_limit := 100 }

/-- C10: a metrics state one sample short of warmup completion. -/
def c10_m0 : HostMetrics := { rtt_samples := List.replicate 19 (3/2) }

/-- C10: from the successful sample that completes warmup onward (any
state whose post-body metrics have `warmup_completed` and a baseline),
the task executing `_record_success` reaches the inner
`async with self.lock` of `_evaluate_concurrency_adjustment` while itself
holding that non-reentrant lock, and no number of scheduler steps ever
brings it to the `finished` location: the call never returns. -/
theorem c10_deadlock (cfg : RCConfig) (rtt now : ℚ) (m : HostMetrics)
    (hwarm : (record_success_body cfg m rtt now).warmup_completed = true)
    (hbase : (record_success_body cfg m rtt now).base_rtt ≠ none) :
    ∀ n, ((record_success_step cfg rtt now)^[n]
      { loc := .entry, lockHeld := false, m := m }).loc ≠ .finished := by
  have hfix : record_success_step cfg rtt now
      { loc := .innerLock, lockHeld := true,
        m := record_success_body cfg m rtt now } =
      { loc := .innerLock, lockHeld := true,
        m := record_success_body cfg m rtt now } := by
    simp [record_success_step]
  have h3 : (record_success_step cfg rtt now)^[3]
      { loc := .entry, lockHeld := false, m := m } =
      { loc := .innerLock, lockHeld := true,
        m := record_success_body cfg m rtt now } := by
    show record_success_step cfg rtt now (record_success_step cfg rtt now
      (record_success_step cfg rtt now
        { loc := .entry, lockHeld := false, m := m })) = _
    simp [record_success_step, hwarm, hbase]
  have hge : ∀ k, (record_success_step cfg rtt now)^[k + 3]
      { loc := .entry, lockHeld := false, m := m } =
      { loc := .innerLock, lockHeld := true,
        m := record_success_body cfg m rtt now } := by
    intro k
    induction k with
    | zero => exact h3
    | succ k ih =>
      have : k + 1 + 3 = (k + 3) + 1 := by omega
      rw [this, Function.iterate_succ_apply', ih, hfix]
  intro n
  match n with
  | 0 => simp
  | 1 => simp [record_success_step]
  | 2 =>
    show ((record_success_step cfg rtt now) ((record_success_step cfg rtt now)
      { loc := .entry, lockHeld := false, m := m })).loc ≠ .finished
    simp [record_success_step]
  | (k + 3) => rw [hge k]; simp

unseal Rat.add Rat.mul Rat.inv Rat.sub Rat.ofScientific in
/-- C10 witness: the deadlock at a concrete warmup-completing sample. -/
theorem c10_deadlock_witness :
    ((record_success_step c10_cfg (3/2) 100)^[7]
      { loc := .entry, lockHeld := false, m := c10_m0 }).loc ≠ .finished :=
  c10_deadlock c10_cfg (3/2) 100 c10_m0 (by decide) (by decide) 7

end GameSeekerVault
